import Mathlib

/-!
Shallow embedding of the display-library repository (src/src/DisplayItem.h,
src/src/DisplayConfig.h, src/src/LCDDisplayController.h,
src/src/LCDInventoryController.h) and proofs about the spec's claims.

Conventions of the embedding:
* C++ std::string is modelled as List Char (1 display cell = 1 character).
* size_t fields are modelled as Nat.  Truncated Nat subtraction agrees with
  size_t subtraction at every subtraction site of the source: each one is
  guarded so the minuend is at least the subtrahend on all states the claims
  quantify over (windowStartIndex <= selectedItemIndex is the controller's
  own invariant, and the remaining sites are guarded by explicit if checks).
* The injected IRenderer is external to the core, so a render push is
  modelled as a returned frame (the line list together with the column count
  that LCDDisplayController::render hands to IRenderer::render).  An
  operation returns the list of frames it pushed, in order.
* A C++ throw is modelled as Except.error: the thrown paths of the source
  throw before any member is mutated, so no successor state and no frames
  exist on the error path.
-/

/-- DisplayConfig of src/src/DisplayConfig.h: runtime display configuration. -/
structure DisplayConfig where
  rows : Nat
  columns : Nat
  navigatorChar : Char
  separatorChar : Char
deriving DecidableEq

/-- DisplayItem of src/src/DisplayItem.h: a key/value record.  The compile-time
template parameters KeyWidth/ValueWidth and the toString overload selected for
TKey/TValue become explicit arguments of the formatting functions below. -/
structure DisplayItem (K V : Type) where
  key : K
  value : V
deriving DecidableEq

namespace DisplayItem

/-- formatToWidth of src/src/DisplayItem.h lines 52-63: pad with trailing
spaces when the text is shorter than the width, truncate to the width when it
is longer, otherwise return the text unchanged. -/
def formatToWidth (text : List Char) (width : Nat) : List Char :=
  if text.length < width then
    text ++ List.replicate (width - text.length) ' '
  else if width < text.length then
    text.take width
  else
    text

/-- setValue of src/src/DisplayItem.h lines 81-84. -/
def setValue (it : DisplayItem K V) (newValue : V) : DisplayItem K V :=
  { it with value := newValue }

/-- getKey of src/src/DisplayItem.h lines 86-89. -/
def getKey (it : DisplayItem K V) : K := it.key

/-- getValue of src/src/DisplayItem.h lines 91-94. -/
def getValue (it : DisplayItem K V) : V := it.value

/-- getFormattedKey of src/src/DisplayItem.h lines 97-100, with the type's
toString for TKey passed explicitly as toStrK and KeyWidth as keyWidth. -/
def getFormattedKey (toStrK : K → List Char) (keyWidth : Nat)
    (it : DisplayItem K V) : List Char :=
  formatToWidth (toStrK it.key) keyWidth

/-- getFormattedValue of src/src/DisplayItem.h lines 103-106. -/
def getFormattedValue (toStrV : V → List Char) (valueWidth : Nat)
    (it : DisplayItem K V) : List Char :=
  formatToWidth (toStrV it.value) valueWidth

end DisplayItem

/-- Loop of operator<< printing an unsigned integer in decimal: peel decimal
digits from the least significant end, accumulating most-significant-first.
The first argument is structural fuel bounding the number of digits; natDecimal
supplies enough fuel for every input, so the fuel never runs out. -/
def natDecimalAux : Nat → Nat → List Char → List Char
  | 0, _, acc => acc
  | fuel + 1, n, acc =>
    let d : Char := Char.ofNat (48 + n % 10)
    if n / 10 = 0 then d :: acc
    else natDecimalAux fuel (n / 10) (d :: acc)

/-- Decimal numeral of a natural number, most significant digit first. -/
def natDecimal (n : Nat) : List Char := natDecimalAux (n + 1) n []

/-- toString(const uint8_t&) of src/src/DisplayItem.h lines 36-41: the byte is
cast to unsigned int and streamed, so the result is its decimal numeral. -/
def toStringU8 (data : Nat) : List Char := natDecimal data

/-- toString(const int8_t&) of src/src/DisplayItem.h lines 44-49: the byte is
cast to int and streamed, so the result is the decimal numeral of the signed
value, with a leading minus sign when negative. -/
def toStringI8 (data : Int) : List Char :=
  if data < 0 then '-' :: natDecimal data.natAbs else natDecimal data.toNat

/-- Signed 8-bit value stored in a byte b (two's complement reading used when
an int8_t is streamed). -/
def int8OfByte (b : Nat) : Int :=
  if b < 128 then (b : Int) else (b : Int) - 256

/-- Rendering a byte as the raw character with that code: what streaming the
byte without the cast of toString(const uint8_t&) would produce, and what the
claim C9 says never happens. -/
def charRender (b : Nat) : List Char := [Char.ofNat b]

/-- Frame pushed to the external line sink: the argument pair of
IRenderer::render(lines, columns) as called by LCDDisplayController::render. -/
abbrev Frame : Type := List (List Char) × Nat

/-- Error taxonomy of the controller: std::out_of_range thrown by
validateItemIndex, and std::invalid_argument thrown by the constructor. -/
inductive CtrlError where
  | indexError
  | configError
deriving DecidableEq

/-- Mutable state of a LCDDisplayController (src/src/LCDDisplayController.h
lines 29-35) minus the injected renderer, which is modelled by the frames the
operations return. -/
structure LCDDisplayController (I : Type) where
  config : DisplayConfig
  items : List I
  selectedItemIndex : Nat
  windowStartIndex : Nat
  isSelected : Bool
deriving DecidableEq

/-- Member-initialiser list of the constructor (line 134): selectedItemIndex
and windowStartIndex start at 0 with the armed flag cleared. -/
def initState (config : DisplayConfig) (items : List I) : LCDDisplayController I :=
  { config := config, items := items,
    selectedItemIndex := 0, windowStartIndex := 0, isSelected := false }

namespace LCDDisplayController

/-- getNavigatorRowInWindow, lines 41-44.  The size_t subtraction cannot
underflow on any state with windowStartIndex <= selectedItemIndex, which the
controller maintains (both fields start at 0 and adjustWindow restores it);
truncated Nat subtraction therefore agrees with the source there. -/
def getNavigatorRowInWindow (s : LCDDisplayController I) : Nat :=
  s.selectedItemIndex - s.windowStartIndex

/-- formatRow, lines 50-83: navigator cell, then either the formatted
key/separator/value of the row's item or spaces when the row has no backing
item, finally padded or truncated to exactly config.columns.  The item type's
getFormattedKey/getFormattedValue are passed explicitly as fk/fv. -/
def formatRow (fk fv : I → List Char) (s : LCDDisplayController I)
    (rowIndex : Nat) : List Char :=
  let itemIndex := s.windowStartIndex + rowIndex
  let nav : Char :=
    if rowIndex = getNavigatorRowInWindow s then s.config.navigatorChar else ' '
  let body : List Char :=
    match s.items.get? itemIndex with
    | some it => fk it ++ s.config.separatorChar :: fv it
    | none => List.replicate (if 1 < s.config.columns then s.config.columns - 1 else 0) ' '
  let line := nav :: body
  if line.length < s.config.columns then
    line ++ List.replicate (s.config.columns - line.length) ' '
  else if s.config.columns < line.length then
    line.take s.config.columns
  else
    line

/-- validateItemIndex, lines 88-94: std::out_of_range when the index is not
below the item count. -/
def validateItemIndex (s : LCDDisplayController I) (itemIndex : Nat) :
    Except CtrlError Unit :=
  if s.items.length ≤ itemIndex then .error .indexError else .ok ()

/-- adjustWindow, lines 100-118. -/
def adjustWindow (s : LCDDisplayController I) : LCDDisplayController I :=
  if s.items.isEmpty then
    { s with windowStartIndex := 0 }
  else if s.selectedItemIndex < s.windowStartIndex then
    { s with windowStartIndex := s.selectedItemIndex }
  else if s.windowStartIndex + s.config.rows ≤ s.selectedItemIndex then
    { s with windowStartIndex := s.selectedItemIndex - s.config.rows + 1 }
  else
    s

/-- render, lines 168-179: formatRow for each of the config.rows rows.  The
push to the renderer is the frame (render fk fv s, s.config.columns). -/
def render (fk fv : I → List Char) (s : LCDDisplayController I) :
    List (List Char) :=
  (List.range s.config.rows).map (formatRow fk fv s)

/-- navigateUp, lines 185-195. -/
def navigateUp (fk fv : I → List Char) (s : LCDDisplayController I) :
    Bool × LCDDisplayController I × List Frame :=
  if 0 < s.selectedItemIndex then
    let s1 := adjustWindow { s with selectedItemIndex := s.selectedItemIndex - 1 }
    (true, s1, [(render fk fv s1, s1.config.columns)])
  else
    (false, s, [])

/-- navigateDown, lines 201-211. -/
def navigateDown (fk fv : I → List Char) (s : LCDDisplayController I) :
    Bool × LCDDisplayController I × List Frame :=
  if s.items.isEmpty = false ∧ s.selectedItemIndex < s.items.length - 1 then
    let s1 := adjustWindow { s with selectedItemIndex := s.selectedItemIndex + 1 }
    (true, s1, [(render fk fv s1, s1.config.columns)])
  else
    (false, s, [])

/-- selectItem, lines 217-226. -/
def selectItem (fk fv : I → List Char) (s : LCDDisplayController I) :
    Bool × LCDDisplayController I × List Frame :=
  if s.isSelected then
    (false, s, [])
  else
    let s1 := { s with isSelected := true }
    (true, s1, [(render fk fv s1, s1.config.columns)])

/-- deselectItem, lines 232-241. -/
def deselectItem (fk fv : I → List Char) (s : LCDDisplayController I) :
    Bool × LCDDisplayController I × List Frame :=
  if s.isSelected then
    let s1 := { s with isSelected := false }
    (true, s1, [(render fk fv s1, s1.config.columns)])
  else
    (false, s, [])

/-- setCurrentValue, lines 246-252: validateItemIndex, in-place overwrite via
DisplayItem::setValue (passed as setVal), then one render.  The dependent if
is validateItemIndex's check; its success branch makes the vector access
well-formed. -/
def setCurrentValue (fk fv : I → List Char) (setVal : I → V → I) (newValue : V)
    (s : LCDDisplayController I) :
    Except CtrlError (LCDDisplayController I × List Frame) :=
  if h : s.selectedItemIndex < s.items.length then
    let s1 := { s with
      items := s.items.set s.selectedItemIndex
        (setVal (s.items.get ⟨s.selectedItemIndex, h⟩) newValue) }
    .ok (s1, [(render fk fv s1, s1.config.columns)])
  else
    .error .indexError

/-- getCurrentValue, lines 257-261: validateItemIndex then a read through
DisplayItem::getValue (passed as getVal). -/
def getCurrentValue (getVal : I → V) (s : LCDDisplayController I) :
    Except CtrlError V :=
  if h : s.selectedItemIndex < s.items.length then
    .ok (getVal (s.items.get ⟨s.selectedItemIndex, h⟩))
  else
    .error .indexError

/-- getCurrentKey, lines 266-270. -/
def getCurrentKey (getK : I → W) (s : LCDDisplayController I) :
    Except CtrlError W :=
  if h : s.selectedItemIndex < s.items.length then
    .ok (getK (s.items.get ⟨s.selectedItemIndex, h⟩))
  else
    .error .indexError

/-- canScroll, lines 308-311. -/
def canScroll (s : LCDDisplayController I) : Bool :=
  s.config.rows < s.items.length

end LCDDisplayController

/-- Constructor body of LCDDisplayController, lines 129-163: reject a null
renderer (the shared_ptr's nullness is the Bool rendererIsNull) and a column
count below 1 navigator + KeyWidth + 1 separator + ValueWidth; otherwise the
state of the member-initialiser list.  The returned frame list is empty in
every case: the constructor body contains no render call, so construction
never pushes to the sink. -/
def mkController (keyWidth valueWidth : Nat) (rendererIsNull : Bool)
    (items : List I) (config : DisplayConfig) :
    Except CtrlError (LCDDisplayController I × List Frame) :=
  let requiredWidth := 1 + keyWidth + 1 + valueWidth
  if rendererIsNull then
    .error .configError
  else if config.columns < requiredWidth then
    .error .configError
  else
    .ok (initState config items, [])

namespace LCDInventoryController

/-- Implicit int to uint8_t conversion at the call items[i].setValue(newValue)
inside setCurrentValue when the item's value type is uint8_t: the int computed
by incrementValue/decrementValue is reduced modulo 256 on store. -/
def setValueU8 (it : DisplayItem K Nat) (newValue : Int) : DisplayItem K Nat :=
  it.setValue (newValue % 256).toNat

/-- incrementValue of src/src/LCDInventoryController.h lines 53-57: read the
current value (a uint8_t, promoted to int by the + 1), write back through
setCurrentValue, where the store narrows back to uint8_t. -/
def incrementValue (fk fv : DisplayItem K Nat → List Char)
    (s : LCDDisplayController (DisplayItem K Nat)) :
    Except CtrlError (LCDDisplayController (DisplayItem K Nat) × List Frame) :=
  match s.getCurrentValue DisplayItem.getValue with
  | .error e => .error e
  | .ok currentValue =>
    s.setCurrentValue fk fv setValueU8 ((currentValue : Int) + 1)

/-- decrementValue of src/src/LCDInventoryController.h lines 59-63. -/
def decrementValue (fk fv : DisplayItem K Nat → List Char)
    (s : LCDDisplayController (DisplayItem K Nat)) :
    Except CtrlError (LCDDisplayController (DisplayItem K Nat) × List Frame) :=
  match s.getCurrentValue DisplayItem.getValue with
  | .error e => .error e
  | .ok currentValue =>
    s.setCurrentValue fk fv setValueU8 ((currentValue : Int) - 1)

end LCDInventoryController

/-!
Concrete fixtures mirroring the repository's own tests: TestDisplayItem of
tests/DisplayControllerTests.cpp and tests/ScrollingTests.cpp is
DisplayItem with string key, numeric value, KeyWidth 10 and ValueWidth 4,
driven with DisplayConfig(2, 16) — the byte-valued decimal renderer stands in
for operator<< on the numeric value.
-/

abbrev TestItem := DisplayItem (List Char) Nat

def testConfig : DisplayConfig := ⟨2, 16, '>', ':'⟩

def testFmtKey : TestItem → List Char := fun it => it.getFormattedKey id 10

def testFmtVal : TestItem → List Char := fun it => it.getFormattedValue toStringU8 4

def fiveItems : List TestItem :=
  [⟨"Item0".toList, 0⟩, ⟨"Item1".toList, 10⟩, ⟨"Item2".toList, 20⟩,
   ⟨"Item3".toList, 30⟩, ⟨"Item4".toList, 40⟩]

/-- Abstract navigation command, for quantifying over navigateUp/navigateDown
call sequences. -/
inductive NavCmd where
  | up
  | down

/-- State reached by one navigation call (the Bool result and the pushed
frames discarded). -/
def applyNav (fk fv : I → List Char) :
    NavCmd → LCDDisplayController I → LCDDisplayController I
  | .up, s => (s.navigateUp fk fv).2.1
  | .down, s => (s.navigateDown fk fv).2.1

/-- State reached by a sequence of navigation calls, first command first. -/
def applyNavs (fk fv : I → List Char) :
    List NavCmd → LCDDisplayController I → LCDDisplayController I
  | [], s => s
  | c :: cs, s => applyNavs fk fv cs (applyNav fk fv c s)

/-- Claim C2 counterexample: formatting the key "Hi" at KeyWidth 8 (the input
of tests/DisplayItemTests.cpp, GetFormattedKeyPadsShortKeys) does not return
the text left-padded with spaces: the source appends the padding instead. -/
theorem formatted_key_not_left_padded :
    DisplayItem.getFormattedKey id 8 (⟨"Hi".toList, (42 : Nat)⟩ : TestItem)
      ≠ List.replicate 6 ' ' ++ "Hi".toList := by
  decide

/-- Claim C2, amended: for every key (resp. value) whose rendered text is
shorter than the configured width, getFormattedKey (resp. getFormattedValue)
returns the text right-padded with spaces to exactly that width — the padding
spaces follow the rendered text. -/
theorem formatted_text_right_padded :
    (∀ (K V : Type) (toStrK : K → List Char) (kw : Nat) (it : DisplayItem K V),
      (toStrK it.key).length < kw →
        it.getFormattedKey toStrK kw
          = toStrK it.key ++ List.replicate (kw - (toStrK it.key).length) ' ')
    ∧ (∀ (K V : Type) (toStrV : V → List Char) (vw : Nat) (it : DisplayItem K V),
      (toStrV it.value).length < vw →
        it.getFormattedValue toStrV vw
          = toStrV it.value ++ List.replicate (vw - (toStrV it.value).length) ' ') := by
  constructor
  · intro K V toStrK kw it h
    unfold DisplayItem.getFormattedKey DisplayItem.formatToWidth
    rw [if_pos h]
  · intro K V toStrV vw it h
    unfold DisplayItem.getFormattedValue DisplayItem.formatToWidth
    rw [if_pos h]

/-- Claim C5: when the rendered text fits the configured width the formatted
output has exactly that width and starts with the text; when it is longer the
output is the first width characters of the text.  Stated for getFormattedKey
and getFormattedValue. -/
theorem format_width_round_trip :
    (∀ (K V : Type) (toStrK : K → List Char) (kw : Nat) (it : DisplayItem K V),
      ((toStrK it.key).length ≤ kw →
        (it.getFormattedKey toStrK kw).length = kw
          ∧ (it.getFormattedKey toStrK kw).take (toStrK it.key).length = toStrK it.key)
      ∧ (kw < (toStrK it.key).length →
        it.getFormattedKey toStrK kw = (toStrK it.key).take kw))
    ∧ (∀ (K V : Type) (toStrV : V → List Char) (vw : Nat) (it : DisplayItem K V),
      ((toStrV it.value).length ≤ vw →
        (it.getFormattedValue toStrV vw).length = vw
          ∧ (it.getFormattedValue toStrV vw).take (toStrV it.value).length = toStrV it.value)
      ∧ (vw < (toStrV it.value).length →
        it.getFormattedValue toStrV vw = (toStrV it.value).take vw)) := by
  have main : ∀ (text : List Char) (w : Nat),
      (text.length ≤ w →
        (DisplayItem.formatToWidth text w).length = w
          ∧ (DisplayItem.formatToWidth text w).take text.length = text)
      ∧ (w < text.length →
        DisplayItem.formatToWidth text w = text.take w) := by
    intro text w
    unfold DisplayItem.formatToWidth
    constructor
    · intro hle
      rcases Nat.lt_or_ge text.length w with hlt | hge
      · rw [if_pos hlt]
        refine ⟨?_, ?_⟩
        · simp [List.length_append]
          omega
        · exact List.take_left text _
      · have heq : text.length = w := Nat.le_antisymm hle hge
        rw [if_neg (by omega), if_neg (by omega)]
        exact ⟨heq, List.take_length text⟩
    · intro hgt
      rw [if_neg (by omega), if_pos hgt]
  constructor
  · intro K V toStrK kw it
    exact main (toStrK it.key) kw
  · intro K V toStrV vw it
    exact main (toStrV it.value) vw

set_option maxRecDepth 4096

/-- Claim C9: an 8-bit value, unsigned or signed, is rendered by the toString
overloads as the decimal numeral of its numeric value (Nat.repr / Int.repr up
to the list-of-characters coercion), never as the raw character with that
code; in particular 65 renders as the two characters 65, not as A. -/
theorem byte_values_render_as_decimal :
    (∀ n : Nat, n < 256 → toStringU8 n = (Nat.repr n).toList)
    ∧ (∀ n : Nat, n < 256 → toStringU8 n ≠ charRender n)
    ∧ (∀ b : Nat, b < 256 → toStringI8 (int8OfByte b) = (Int.repr (int8OfByte b)).toList)
    ∧ toStringU8 65 = "65".toList
    ∧ charRender 65 = "A".toList
    ∧ DisplayItem.getFormattedValue toStringU8 3
        (⟨[], (65 : Nat)⟩ : DisplayItem (List Char) Nat) = "65 ".toList := by
  refine ⟨by decide, by decide, by decide, by decide, by decide, by decide⟩

/-- Render output depends only on config, items, selectedItemIndex and
windowStartIndex: formatRow and render never read the armed flag. -/
theorem render_congr (fk fv : I → List Char) (s t : LCDDisplayController I)
    (hc : s.config = t.config) (hi : s.items = t.items)
    (hs : s.selectedItemIndex = t.selectedItemIndex)
    (hw : s.windowStartIndex = t.windowStartIndex) :
    s.render fk fv = t.render fk fv := by
  obtain ⟨c, it, si, wi, b⟩ := s
  obtain ⟨c2, it2, si2, wi2, b2⟩ := t
  simp only at hc hi hs hw
  subst hc; subst hi; subst hs; subst hw
  rfl

/-- Claim C10: rendered line content is independent of the armed flag — two
states equal except possibly in isSelected render identically — and the
one frame pushed by selectItem or deselectItem when the flag flips carries
exactly the lines a render of the pre-flip state would push. -/
theorem render_independent_of_armed_flag :
    (∀ (I : Type) (fk fv : I → List Char) (s t : LCDDisplayController I),
      s.config = t.config → s.items = t.items →
      s.selectedItemIndex = t.selectedItemIndex →
      s.windowStartIndex = t.windowStartIndex →
      s.render fk fv = t.render fk fv)
    ∧ (∀ (I : Type) (fk fv : I → List Char) (s : LCDDisplayController I),
      (s.selectItem fk fv).2.2
        = if s.isSelected then [] else [(s.render fk fv, s.config.columns)])
    ∧ (∀ (I : Type) (fk fv : I → List Char) (s : LCDDisplayController I),
      (s.deselectItem fk fv).2.2
        = if s.isSelected then [(s.render fk fv, s.config.columns)] else []) := by
  refine ⟨fun I fk fv s t hc hi hs hw => render_congr fk fv s t hc hi hs hw, ?_, ?_⟩
  · intro I fk fv s
    by_cases hsel : s.isSelected
    · simp [LCDDisplayController.selectItem, hsel]
    · simp only [LCDDisplayController.selectItem, hsel, Bool.false_eq_true, if_false,
        if_neg hsel]
      rw [render_congr fk fv { s with isSelected := true } s rfl rfl rfl rfl]
  · intro I fk fv s
    by_cases hsel : s.isSelected
    · simp only [LCDDisplayController.deselectItem, hsel, if_true, if_pos hsel]
      rw [render_congr fk fv { s with isSelected := false } s rfl rfl rfl rfl]
    · simp [LCDDisplayController.deselectItem, hsel]

/-- Claim C1 counterexample: over an empty record store with rows = 2 and
columns = 16, render does not push two blank lines — the first pushed line
carries the cursor glyph in its first cell, because formatRow places the
navigator character at row selectedItemIndex - windowStartIndex = 0 even when
no record exists. -/
theorem render_empty_store_shows_cursor_glyph :
    ¬ (∀ l ∈ LCDDisplayController.render testFmtKey testFmtVal
          (initState testConfig ([] : List TestItem)),
        l = List.replicate 16 ' ') := by
  decide

/-- Row formatted over an empty store: the navigator glyph in the first cell
of row 0, spaces everywhere else. -/
theorem formatRow_empty_store (cfg : DisplayConfig) (fk fv : I → List Char)
    (hcols : 0 < cfg.columns) (r : Nat) :
    LCDDisplayController.formatRow fk fv (initState cfg ([] : List I)) r
      = (if r = 0 then cfg.navigatorChar else ' ') :: List.replicate (cfg.columns - 1) ' ' := by
  unfold LCDDisplayController.formatRow LCDDisplayController.getNavigatorRowInWindow initState
  dsimp only
  rw [List.get?_nil]
  by_cases h1 : 1 < cfg.columns
  · rw [if_pos h1]
    rw [if_neg (by simp [List.length_replicate]; omega),
      if_neg (by simp [List.length_replicate]; omega)]
  · have hc1 : cfg.columns = 1 := by omega
    rw [if_neg h1]
    rw [if_neg (by simp [hc1]), if_neg (by simp [hc1])]
    simp [hc1]

/-- Claim C1, amended: over an empty record store, render pushes exactly rows
lines of exactly columns characters each and raises no exception (the
embedding is total), but the lines are not all blank: row 0 carries the
cursor glyph in its first cell followed by spaces — the navigator is drawn at
row selectedIndex - windowStart = 0 even though no record is selected — and
every other row is all spaces. -/
theorem render_empty_store_lines (cfg : DisplayConfig) (fk fv : I → List Char)
    (hcols : 0 < cfg.columns) :
    (LCDDisplayController.render fk fv (initState cfg ([] : List I))).length = cfg.rows
    ∧ (∀ r, r < cfg.rows →
        (LCDDisplayController.render fk fv (initState cfg ([] : List I))).get? r
          = some (if r = 0 then cfg.navigatorChar :: List.replicate (cfg.columns - 1) ' '
                  else List.replicate cfg.columns ' '))
    ∧ (∀ l ∈ LCDDisplayController.render fk fv (initState cfg ([] : List I)),
        l.length = cfg.columns) := by
  have hrow : ∀ r : Nat,
      LCDDisplayController.formatRow fk fv (initState cfg ([] : List I)) r
        = if r = 0 then cfg.navigatorChar :: List.replicate (cfg.columns - 1) ' '
          else List.replicate cfg.columns ' ' := by
    intro r
    rw [formatRow_empty_store cfg fk fv hcols r]
    by_cases hr : r = 0
    · simp [hr]
    · rw [if_neg hr, if_neg hr]
      have hrep : List.replicate cfg.columns (' ' : Char)
          = ' ' :: List.replicate (cfg.columns - 1) ' ' := by
        cases hc : cfg.columns with
        | zero => omega
        | succ m => simp [List.replicate_succ]
      rw [hrep]
  have hrows : (initState cfg ([] : List I)).config.rows = cfg.rows := rfl
  refine ⟨?_, ?_, ?_⟩
  · simp [LCDDisplayController.render, initState]
  · intro r hr
    unfold LCDDisplayController.render
    rw [hrows, List.get?_map, List.get?_range hr]
    simp [hrow r]
  · intro l hl
    unfold LCDDisplayController.render at hl
    obtain ⟨r, hrmem, hrl⟩ := List.mem_map.mp hl
    rw [hrow r] at hrl
    subst hrl
    by_cases hr : r = 0 <;> simp [hr] <;> omega

/-- Claim C1 witness instance: the amended statement evaluated at the
configuration of Scenario 2 (rows = 2, columns = 16) over an empty store. -/
theorem render_empty_store_lines_witness :
    (LCDDisplayController.render testFmtKey testFmtVal
        (initState testConfig ([] : List TestItem))).length = testConfig.rows
    ∧ (∀ r, r < testConfig.rows →
        (LCDDisplayController.render testFmtKey testFmtVal
            (initState testConfig ([] : List TestItem))).get? r
          = some (if r = 0 then
                    testConfig.navigatorChar :: List.replicate (testConfig.columns - 1) ' '
                  else List.replicate testConfig.columns ' '))
    ∧ (∀ l ∈ LCDDisplayController.render testFmtKey testFmtVal
          (initState testConfig ([] : List TestItem)),
        l.length = testConfig.columns) :=
  render_empty_store_lines testConfig testFmtKey testFmtVal (by decide)

/-- Claim C6: whenever the selected index is not below the store length — in
particular over an empty store — getCurrentValue, getCurrentKey and
setCurrentValue all fail with the index error.  The failure is atomic: the
error return carries no successor state and no frames, exactly as the source
throws std::out_of_range inside validateItemIndex before any member is
mutated or any render issued, so store contents, selectedIndex, windowStart
and the armed flag are those the caller already holds. -/
theorem current_item_ops_error_atomically
    (I V W : Type) (fk fv : I → List Char) (getVal : I → V) (getK : I → W)
    (setVal : I → V → I) (newValue : V) (s : LCDDisplayController I)
    (h : s.items.length ≤ s.selectedItemIndex) :
    s.getCurrentValue getVal = .error .indexError
    ∧ s.getCurrentKey getK = .error .indexError
    ∧ s.setCurrentValue fk fv setVal newValue = .error .indexError
    ∧ s.validateItemIndex s.selectedItemIndex = .error .indexError := by
  refine ⟨?_, ?_, ?_, ?_⟩
  · unfold LCDDisplayController.getCurrentValue
    rw [dif_neg (by omega)]
  · unfold LCDDisplayController.getCurrentKey
    rw [dif_neg (by omega)]
  · unfold LCDDisplayController.setCurrentValue
    rw [dif_neg (by omega)]
  · unfold LCDDisplayController.validateItemIndex
    rw [if_pos h]

/-- Claim C6 witness instance: the three operations on a freshly constructed
controller over an empty store. -/
theorem current_item_ops_error_atomically_witness :
    (initState testConfig ([] : List TestItem)).getCurrentValue DisplayItem.getValue
        = .error .indexError
    ∧ (initState testConfig ([] : List TestItem)).getCurrentKey DisplayItem.getKey
        = .error .indexError
    ∧ (initState testConfig ([] : List TestItem)).setCurrentValue testFmtKey testFmtVal
        DisplayItem.setValue 7 = .error .indexError
    ∧ (initState testConfig ([] : List TestItem)).validateItemIndex
        (initState testConfig ([] : List TestItem)).selectedItemIndex
          = .error .indexError :=
  current_item_ops_error_atomically TestItem Nat (List Char) testFmtKey testFmtVal
    DisplayItem.getValue DisplayItem.getKey DisplayItem.setValue 7
    (initState testConfig ([] : List TestItem)) (by decide)

/-- Abstract command covering every public operation of the controller, for
quantifying over post-construction call sequences. -/
inductive Cmd (V : Type) where
  | up
  | down
  | select
  | deselect
  | setValue (newValue : V)
  | getValue
  | getKey
  | render

/-- One public operation applied to a state: the successor state and the
frames it pushed, or the error it raised.  The read-only operations return
their value to the caller; only their (absent) state change and frames
matter here. -/
def step (fk fv : I → List Char) (setVal : I → V → I) :
    Cmd V → LCDDisplayController I → Except CtrlError (LCDDisplayController I × List Frame)
  | .up, s =>
    let r := s.navigateUp fk fv
    .ok (r.2.1, r.2.2)
  | .down, s =>
    let r := s.navigateDown fk fv
    .ok (r.2.1, r.2.2)
  | .select, s =>
    let r := s.selectItem fk fv
    .ok (r.2.1, r.2.2)
  | .deselect, s =>
    let r := s.deselectItem fk fv
    .ok (r.2.1, r.2.2)
  | .setValue v, s => s.setCurrentValue fk fv setVal v
  | .getValue, s => (s.getCurrentValue (fun it => it)).map (fun _ => (s, []))
  | .getKey, s => (s.getCurrentKey (fun it => it)).map (fun _ => (s, []))
  | .render, s => .ok (s, [(s.render fk fv, s.config.columns)])

/-- Sequence of public operations, stopping at the first error. -/
def runCmds (fk fv : I → List Char) (setVal : I → V → I) :
    List (Cmd V) → LCDDisplayController I →
    Except CtrlError (LCDDisplayController I × List Frame)
  | [], s => .ok (s, [])
  | c :: cs, s =>
    match step fk fv setVal c s with
    | .error e => .error e
    | .ok (s1, fs) =>
      match runCmds fk fv setVal cs s1 with
      | .error e => .error e
      | .ok (s2, fs2) => .ok (s2, fs ++ fs2)

/-- Every error a public operation raises is the index error: no operation
after construction contains a configuration check. -/
theorem step_error_is_indexError (fk fv : I → List Char) (setVal : I → V → I)
    (c : Cmd V) (s : LCDDisplayController I) (e : CtrlError)
    (h : step fk fv setVal c s = .error e) : e = .indexError := by
  cases c <;>
    simp only [step, LCDDisplayController.setCurrentValue,
      LCDDisplayController.getCurrentValue, LCDDisplayController.getCurrentKey,
      Except.map] at h
  case setValue v =>
    by_cases hv : s.selectedItemIndex < s.items.length
    · rw [dif_pos hv] at h
      exact absurd h (by simp)
    · rw [dif_neg hv] at h
      exact (Except.error.injEq _ _).mp h.symm |>.symm ▸ rfl
  case getValue =>
    by_cases hv : s.selectedItemIndex < s.items.length
    · rw [dif_pos hv] at h
      exact absurd h (by simp)
    · rw [dif_neg hv] at h
      simp at h
      exact h.symm
  case getKey =>
    by_cases hv : s.selectedItemIndex < s.items.length
    · rw [dif_pos hv] at h
      exact absurd h (by simp)
    · rw [dif_neg hv] at h
      simp at h
      exact h.symm
  all_goals exact absurd h (by simp)

/-- Claim C8: construction fails with the configuration error exactly when
the renderer is null or columns < 1 (cursor) + keyWidth + 1 (separator) +
valueWidth; construction never pushes a frame (on success the pushed list is
empty, on failure nothing is returned at all); and no sequence of public
operations on a constructed controller ever raises the configuration error —
post-construction errors are index errors only. -/
theorem construction_validation :
    (∀ (I : Type) (kw vw : Nat) (rendererIsNull : Bool) (items : List I)
        (cfg : DisplayConfig),
      mkController kw vw rendererIsNull items cfg = .error .configError
        ↔ (rendererIsNull = true ∨ cfg.columns < 1 + kw + 1 + vw))
    ∧ (∀ (I : Type) (kw vw : Nat) (rendererIsNull : Bool) (items : List I)
        (cfg : DisplayConfig) (s : LCDDisplayController I) (fs : List Frame),
      mkController kw vw rendererIsNull items cfg = .ok (s, fs) →
        s = initState cfg items ∧ fs = [])
    ∧ (∀ (I V : Type) (fk fv : I → List Char) (setVal : I → V → I)
        (cmds : List (Cmd V)) (s : LCDDisplayController I),
      runCmds fk fv setVal cmds s ≠ .error .configError) := by
  refine ⟨?_, ?_, ?_⟩
  · intro I kw vw rendererIsNull items cfg
    unfold mkController
    by_cases hn : rendererIsNull
    · simp [hn]
    · by_cases hc : cfg.columns < 1 + kw + 1 + vw
      · simp [hn, hc]
      · simp [hn, hc]
  · intro I kw vw rendererIsNull items cfg s fs h
    unfold mkController at h
    by_cases hn : rendererIsNull
    · simp [hn] at h
    · by_cases hc : cfg.columns < 1 + kw + 1 + vw
      · simp [hn, hc] at h
      · simp [hn, hc] at h
        exact ⟨h.1.symm, h.2⟩
  · intro I V fk fv setVal cmds s h
    have key : ∀ (cs : List (Cmd V)) (t : LCDDisplayController I) (e : CtrlError),
        runCmds fk fv setVal cs t = .error e → e = .indexError := by
      intro cs
      induction cs with
      | nil => intro t e h2; simp [runCmds] at h2
      | cons c cs ih =>
        intro t e h2
        rw [runCmds] at h2
        cases hstep : step fk fv setVal c t with
        | error e2 =>
          rw [hstep] at h2
          dsimp only at h2
          simp at h2
          exact h2 ▸ step_error_is_indexError fk fv setVal c t e2 hstep
        | ok p =>
          obtain ⟨s1, fs⟩ := p
          rw [hstep] at h2
          dsimp only at h2
          cases hrun : runCmds fk fv setVal cs s1 with
          | error e3 =>
            rw [hrun] at h2
            dsimp only at h2
            simp at h2
            exact h2 ▸ ih s1 e3 hrun
          | ok q =>
            obtain ⟨s2, fs2⟩ := q
            rw [hrun] at h2
            dsimp only at h2
            simp at h2
    exact absurd (key cmds s .configError h) (by simp)

/-- Nonempty lists are not isEmpty. -/
theorem isEmpty_false_of_ne_nil {α : Type} {l : List α} (h : l ≠ []) :
    l.isEmpty = false := by
  cases l with
  | nil => exact absurd rfl h
  | cons a t => rfl

/-- Claim C4: on a state satisfying the controller's invariant
windowStart ≤ selectedIndex, navigateDown with a non-empty store and
selectedIndex < length - 1 increments selectedIndex, moves windowStart to
selectedIndex - rows + 1 exactly when the new selectedIndex has reached
windowStart + rows, returns true and pushes exactly one render of the new
state; otherwise it returns false, leaves the state untouched and pushes
nothing.  The concrete conjuncts replay Scenario 1: five records, rows = 2,
three navigateDown calls give selectedIndex 3 and windowStart 2, and the
third call pushes record 2 without the cursor glyph on row 0 and record 3
with the cursor glyph on row 1. -/
theorem navigate_down_behavior :
    (∀ (I : Type) (fk fv : I → List Char) (s : LCDDisplayController I),
      s.items ≠ [] → s.selectedItemIndex < s.items.length - 1 →
      s.windowStartIndex ≤ s.selectedItemIndex →
      s.navigateDown fk fv
        = (let s1 : LCDDisplayController I :=
            { s with
              selectedItemIndex := s.selectedItemIndex + 1,
              windowStartIndex :=
                if s.windowStartIndex + s.config.rows ≤ s.selectedItemIndex + 1 then
                  s.selectedItemIndex + 1 - s.config.rows + 1
                else s.windowStartIndex }
          (true, s1, [(s1.render fk fv, s1.config.columns)])))
    ∧ (∀ (I : Type) (fk fv : I → List Char) (s : LCDDisplayController I),
      s.items = [] ∨ s.items.length - 1 ≤ s.selectedItemIndex →
      s.navigateDown fk fv = (false, s, []))
    ∧ (applyNavs testFmtKey testFmtVal [.down, .down, .down]
        (initState testConfig fiveItems)).selectedItemIndex = 3
    ∧ (applyNavs testFmtKey testFmtVal [.down, .down, .down]
        (initState testConfig fiveItems)).windowStartIndex = 2
    ∧ ((applyNavs testFmtKey testFmtVal [.down, .down]
        (initState testConfig fiveItems)).navigateDown testFmtKey testFmtVal).2.2
      = [([(" Item2     :20  ").toList, (">Item3     :30  ").toList], 16)] := by
  refine ⟨?_, ?_, by decide, by decide, by decide⟩
  · intro I fk fv s hne hlt hwin
    unfold LCDDisplayController.navigateDown
    rw [if_pos ⟨isEmpty_false_of_ne_nil hne, hlt⟩]
    have hadj : LCDDisplayController.adjustWindow
        { s with selectedItemIndex := s.selectedItemIndex + 1 }
        = { s with
            selectedItemIndex := s.selectedItemIndex + 1,
            windowStartIndex :=
              if s.windowStartIndex + s.config.rows ≤ s.selectedItemIndex + 1 then
                s.selectedItemIndex + 1 - s.config.rows + 1
              else s.windowStartIndex } := by
      unfold LCDDisplayController.adjustWindow
      dsimp only
      rw [if_neg (by simp [isEmpty_false_of_ne_nil hne]), if_neg (by omega)]
      by_cases hscroll : s.windowStartIndex + s.config.rows ≤ s.selectedItemIndex + 1
      · rw [if_pos hscroll, if_pos hscroll]
      · rw [if_neg hscroll, if_neg hscroll]
    rw [hadj]
  · intro I fk fv s h
    unfold LCDDisplayController.navigateDown
    rcases h with h | h
    · rw [if_neg (by rintro ⟨h1, h2⟩; simp [h] at h1)]
    · rw [if_neg (by rintro ⟨h1, h2⟩; omega)]

/-- Window invariant of the spec: the selection lies inside the visible
window and the window never extends past max(length, rows). -/
def windowInv (s : LCDDisplayController I) : Prop :=
  s.windowStartIndex ≤ s.selectedItemIndex
  ∧ s.selectedItemIndex < s.windowStartIndex + s.config.rows
  ∧ s.windowStartIndex + s.config.rows ≤ max s.items.length s.config.rows

/-- Full navigation invariant: non-empty store, at least one display row,
selection in range, and the window invariant. -/
def navInv (s : LCDDisplayController I) : Prop :=
  s.items ≠ [] ∧ 0 < s.config.rows ∧ s.selectedItemIndex < s.items.length ∧ windowInv s

/-- adjustWindow never changes items, config, the selection or the armed
flag. -/
theorem adjustWindow_fields (s : LCDDisplayController I) :
    (s.adjustWindow.items = s.items ∧ s.adjustWindow.config = s.config)
    ∧ s.adjustWindow.selectedItemIndex = s.selectedItemIndex
    ∧ s.adjustWindow.isSelected = s.isSelected := by
  unfold LCDDisplayController.adjustWindow
  split_ifs <;> exact ⟨⟨rfl, rfl⟩, rfl, rfl⟩

/-- Window start produced by adjustWindow, as a case split on its branches. -/
theorem adjustWindow_windowStartIndex (s : LCDDisplayController I) :
    s.adjustWindow.windowStartIndex
      = if s.items.isEmpty then 0
        else if s.selectedItemIndex < s.windowStartIndex then s.selectedItemIndex
        else if s.windowStartIndex + s.config.rows ≤ s.selectedItemIndex then
          s.selectedItemIndex - s.config.rows + 1
        else s.windowStartIndex := by
  unfold LCDDisplayController.adjustWindow
  split_ifs <;> rfl

/-- adjustWindow restores the navigation invariant after the selection moved
one step up. -/
theorem navInv_adjustWindow_dec (s : LCDDisplayController I) (h : navInv s)
    (hpos : 0 < s.selectedItemIndex) :
    navInv (LCDDisplayController.adjustWindow
      { s with selectedItemIndex := s.selectedItemIndex - 1 }) := by
  simp only [navInv, windowInv] at h ⊢
  obtain ⟨hne, hrows, hsel, hw1, hw2, hw3⟩ := h
  have hemp := isEmpty_false_of_ne_nil hne
  obtain ⟨⟨hai, hac⟩, has, _⟩ := adjustWindow_fields
    ({ s with selectedItemIndex := s.selectedItemIndex - 1 } : LCDDisplayController I)
  have haw := adjustWindow_windowStartIndex
    ({ s with selectedItemIndex := s.selectedItemIndex - 1 } : LCDDisplayController I)
  rw [hai, hac, has, haw]
  dsimp only
  rw [hemp]
  simp only [Bool.false_eq_true, if_false]
  refine ⟨hne, hrows, by omega, ?_, ?_, ?_⟩ <;> split_ifs <;> omega

/-- adjustWindow restores the navigation invariant after the selection moved
one step down. -/
theorem navInv_adjustWindow_inc (s : LCDDisplayController I) (h : navInv s)
    (hlt : s.selectedItemIndex + 1 < s.items.length) :
    navInv (LCDDisplayController.adjustWindow
      { s with selectedItemIndex := s.selectedItemIndex + 1 }) := by
  simp only [navInv, windowInv] at h ⊢
  obtain ⟨hne, hrows, hsel, hw1, hw2, hw3⟩ := h
  have hemp := isEmpty_false_of_ne_nil hne
  obtain ⟨⟨hai, hac⟩, has, _⟩ := adjustWindow_fields
    ({ s with selectedItemIndex := s.selectedItemIndex + 1 } : LCDDisplayController I)
  have haw := adjustWindow_windowStartIndex
    ({ s with selectedItemIndex := s.selectedItemIndex + 1 } : LCDDisplayController I)
  rw [hai, hac, has, haw]
  dsimp only
  rw [hemp]
  simp only [Bool.false_eq_true, if_false]
  refine ⟨hne, hrows, by omega, ?_, ?_, ?_⟩ <;> split_ifs <;> omega

/-- One navigation call preserves the navigation invariant. -/
theorem navInv_applyNav (fk fv : I → List Char) (c : NavCmd)
    (s : LCDDisplayController I) (h : navInv s) : navInv (applyNav fk fv c s) := by
  cases c with
  | up =>
    show navInv (s.navigateUp fk fv).2.1
    unfold LCDDisplayController.navigateUp
    by_cases hpos : 0 < s.selectedItemIndex
    · rw [if_pos hpos]
      exact navInv_adjustWindow_dec s h hpos
    · rw [if_neg hpos]
      exact h
  | down =>
    show navInv (s.navigateDown fk fv).2.1
    unfold LCDDisplayController.navigateDown
    by_cases hcond : s.items.isEmpty = false ∧ s.selectedItemIndex < s.items.length - 1
    · rw [if_pos hcond]
      have hlen : s.items.length ≠ 0 := by
        intro hz
        exact absurd (List.length_eq_zero.mp hz) h.1
      exact navInv_adjustWindow_inc s h (by omega)
    · rw [if_neg hcond]
      exact h

/-- A navigation call sequence preserves the navigation invariant. -/
theorem navInv_applyNavs (fk fv : I → List Char) (cmds : List NavCmd)
    (s : LCDDisplayController I) (h : navInv s) : navInv (applyNavs fk fv cmds s) := by
  induction cmds generalizing s with
  | nil => exact h
  | cons c cs ih => exact ih (applyNav fk fv c s) (navInv_applyNav fk fv c s h)

/-- Navigation calls never change the store or the configuration. -/
theorem applyNav_items_config (fk fv : I → List Char) (c : NavCmd)
    (s : LCDDisplayController I) :
    (applyNav fk fv c s).items = s.items ∧ (applyNav fk fv c s).config = s.config := by
  cases c with
  | up =>
    show (s.navigateUp fk fv).2.1.items = s.items ∧ (s.navigateUp fk fv).2.1.config = s.config
    unfold LCDDisplayController.navigateUp
    by_cases hpos : 0 < s.selectedItemIndex
    · rw [if_pos hpos]
      exact ⟨(adjustWindow_fields _).1.1, (adjustWindow_fields _).1.2⟩
    · rw [if_neg hpos]
      exact ⟨rfl, rfl⟩
  | down =>
    show (s.navigateDown fk fv).2.1.items = s.items ∧ (s.navigateDown fk fv).2.1.config = s.config
    unfold LCDDisplayController.navigateDown
    by_cases hcond : s.items.isEmpty = false ∧ s.selectedItemIndex < s.items.length - 1
    · rw [if_pos hcond]
      exact ⟨(adjustWindow_fields _).1.1, (adjustWindow_fields _).1.2⟩
    · rw [if_neg hcond]
      exact ⟨rfl, rfl⟩

/-- Store and configuration survive a whole navigation sequence. -/
theorem applyNavs_items_config (fk fv : I → List Char) (cmds : List NavCmd)
    (s : LCDDisplayController I) :
    (applyNavs fk fv cmds s).items = s.items
    ∧ (applyNavs fk fv cmds s).config = s.config := by
  induction cmds generalizing s with
  | nil => exact ⟨rfl, rfl⟩
  | cons c cs ih =>
    have h1 := applyNav_items_config fk fv c s
    have h2 := ih (applyNav fk fv c s)
    exact ⟨h2.1.trans h1.1, h2.2.trans h1.2⟩

/-- Claim C3: starting from the initial state over a non-empty store (with at
least one display row), after any sequence of navigateUp/navigateDown calls
the state satisfies windowStart ≤ selectedIndex < windowStart + rows and
windowStart + rows ≤ max(length, rows); in particular windowStart is 0
whenever length ≤ rows.  Quantifying over all command lists covers the state
after each call of any sequence. -/
theorem window_invariant_after_navigation (I : Type) (fk fv : I → List Char)
    (cfg : DisplayConfig) (items : List I) (hne : items ≠ []) (hrows : 0 < cfg.rows)
    (cmds : List NavCmd) :
    windowInv (applyNavs fk fv cmds (initState cfg items))
    ∧ (items.length ≤ cfg.rows →
        (applyNavs fk fv cmds (initState cfg items)).windowStartIndex = 0) := by
  have hlen : items.length ≠ 0 := by
    intro hz
    exact absurd (List.length_eq_zero.mp hz) hne
  have h0 : navInv (initState cfg items) := by
    simp only [navInv, windowInv, initState]
    refine ⟨hne, hrows, by omega, by omega, by omega, by omega⟩
  have hinv := navInv_applyNavs fk fv cmds (initState cfg items) h0
  obtain ⟨hpres1, hpres2⟩ := applyNavs_items_config fk fv cmds (initState cfg items)
  simp only [navInv] at hinv
  obtain ⟨_, _, _, hwinv⟩ := hinv
  refine ⟨hwinv, ?_⟩
  intro hle
  simp only [windowInv] at hwinv
  have hii : (initState cfg items : LCDDisplayController I).items = items := rfl
  have hic : (initState cfg items : LCDDisplayController I).config = cfg := rfl
  rw [hpres1, hii, hpres2, hic] at hwinv
  omega

/-- Claim C3 witness instance: the invariant after two navigateDown calls on
the five-record store of Scenario 1. -/
theorem window_invariant_after_navigation_witness :
    windowInv (applyNavs testFmtKey testFmtVal [.down, .down]
      (initState testConfig fiveItems))
    ∧ (fiveItems.length ≤ testConfig.rows →
        (applyNavs testFmtKey testFmtVal [.down, .down]
          (initState testConfig fiveItems)).windowStartIndex = 0) :=
  window_invariant_after_navigation TestItem testFmtKey testFmtVal testConfig fiveItems
    (by decide) (by decide) [.down, .down]

/-- Inventory fixture: InventoryDisplayItem of src/src/DisplayItem.h line 115
(string key, uint8_t value, KeyWidth 11, ValueWidth 3) — 1 + 11 + 1 + 3 fills
the 16 columns of the default DisplayConfig. -/
def invFmtKey : DisplayItem (List Char) Nat → List Char := fun it =>
  it.getFormattedKey id 11

def invFmtVal : DisplayItem (List Char) Nat → List Char := fun it =>
  it.getFormattedValue toStringU8 3

def goldAt255 : LCDDisplayController (DisplayItem (List Char) Nat) :=
  initState testConfig [⟨"Gold".toList, 255⟩]

def goldAt0 : LCDDisplayController (DisplayItem (List Char) Nat) :=
  initState testConfig [⟨"Gold".toList, 0⟩]

/-- Stored value at index i after an inventory operation, none when the
operation failed. -/
def valueOfResult
    (r : Except CtrlError (LCDDisplayController (DisplayItem (List Char) Nat) × List Frame))
    (i : Nat) : Option Nat :=
  match r with
  | .ok (s, _) => (s.items.get? i).map DisplayItem.getValue
  | .error _ => none

/-- Number of frames an inventory operation pushed. -/
def frameCount
    (r : Except CtrlError (LCDDisplayController (DisplayItem (List Char) Nat) × List Frame)) :
    Nat :=
  match r with
  | .ok (_, fs) => fs.length
  | .error _ => 0

/-- Claim C7: incrementValue reads the selected value and writes value + 1
back through setCurrentValue, which pushes exactly one render;
decrementValue writes value - 1; the int result is narrowed to uint8_t on
store, so the stored byte is the argument modulo 256 — 255 increments to 0
and 0 decrements to 255, as the concrete one-record runs confirm. -/
theorem increment_decrement_wrap_mod_256 :
    (∀ (K : Type) (fk fv : DisplayItem K Nat → List Char)
        (s : LCDDisplayController (DisplayItem K Nat)) (it : DisplayItem K Nat),
      s.items.get? s.selectedItemIndex = some it →
      LCDInventoryController.incrementValue fk fv s
        = (let s1 := { s with
              items := s.items.set s.selectedItemIndex
                (LCDInventoryController.setValueU8 it ((it.value : Int) + 1)) }
           Except.ok (s1, [(s1.render fk fv, s1.config.columns)])))
    ∧ (∀ (K : Type) (fk fv : DisplayItem K Nat → List Char)
        (s : LCDDisplayController (DisplayItem K Nat)) (it : DisplayItem K Nat),
      s.items.get? s.selectedItemIndex = some it →
      LCDInventoryController.decrementValue fk fv s
        = (let s1 := { s with
              items := s.items.set s.selectedItemIndex
                (LCDInventoryController.setValueU8 it ((it.value : Int) - 1)) }
           Except.ok (s1, [(s1.render fk fv, s1.config.columns)])))
    ∧ (∀ (K : Type) (it : DisplayItem K Nat),
      (LCDInventoryController.setValueU8 it ((it.value : Int) + 1)).value
        = (it.value + 1) % 256)
    ∧ (∀ (K : Type) (it : DisplayItem K Nat), it.value = 0 →
      (LCDInventoryController.setValueU8 it ((it.value : Int) - 1)).value = 255)
    ∧ valueOfResult (LCDInventoryController.incrementValue invFmtKey invFmtVal goldAt255) 0
        = some 0
    ∧ frameCount (LCDInventoryController.incrementValue invFmtKey invFmtVal goldAt255) = 1
    ∧ valueOfResult (LCDInventoryController.decrementValue invFmtKey invFmtVal goldAt0) 0
        = some 255
    ∧ frameCount (LCDInventoryController.decrementValue invFmtKey invFmtVal goldAt0) = 1 := by
  have main : ∀ (K : Type) (fk fv : DisplayItem K Nat → List Char)
      (s : LCDDisplayController (DisplayItem K Nat)) (it : DisplayItem K Nat)
      (delta : Int), s.items.get? s.selectedItemIndex = some it →
      (match s.getCurrentValue DisplayItem.getValue with
        | .error e => .error e
        | .ok currentValue =>
          s.setCurrentValue fk fv LCDInventoryController.setValueU8
            ((currentValue : Int) + delta))
        = (let s1 := { s with
              items := s.items.set s.selectedItemIndex
                (LCDInventoryController.setValueU8 it ((it.value : Int) + delta)) }
           Except.ok (s1, [(s1.render fk fv, s1.config.columns)])) := by
    intro K fk fv s it delta hget
    have hlt : s.selectedItemIndex < s.items.length := by
      by_contra hge
      rw [List.get?_eq_none.mpr (by omega)] at hget
      cases hget
    have hEq : s.items.get ⟨s.selectedItemIndex, hlt⟩ = it := by
      have hg := List.get?_eq_get hlt
      rw [hg] at hget
      exact Option.some.inj hget
    unfold LCDDisplayController.getCurrentValue
    rw [dif_pos hlt, hEq]
    dsimp only
    unfold LCDDisplayController.setCurrentValue
    rw [dif_pos hlt, hEq]
    dsimp only [DisplayItem.getValue]
  refine ⟨?_, ?_, ?_, ?_, by decide, by decide, by decide, by decide⟩
  · intro K fk fv s it hget
    unfold LCDInventoryController.incrementValue
    exact main K fk fv s it 1 hget
  · intro K fk fv s it hget
    unfold LCDInventoryController.decrementValue
    have h := main K fk fv s it (-1) hget
    have harg : ((it.value : Int) + (-1)) = ((it.value : Int) - 1) := by ring
    rw [harg] at h
    have harg2 : ∀ v : Nat, ((v : Int) + (-1)) = ((v : Int) - 1) := fun v => by ring
    simp only [harg2] at h
    exact h
  · intro K it
    show ((((it.value : Int) + 1) % 256)).toNat = (it.value + 1) % 256
    omega
  · intro K it h
    show ((((it.value : Int) - 1) % 256)).toNat = 255
    rw [h]
    decide
